import Mathlib

set_option autoImplicit false

/-!
Verification development for the auth-service repository.

The Go source is shallowly embedded: pure functions become Lean functions,
the clock (`time.Now()`) becomes an explicit `now : Int` parameter
(seconds since epoch), fallible operations return `Except`, and the
external collaborators (relational repository, Redis, identity provider)
become explicit state values / function parameters.  Cryptographic
primitives (HMAC-SHA signatures, the bcrypt digest) are modelled
symbolically: a signature value records the algorithm, signing input and
key, so two signatures are equal exactly when those coincide; this is the
standard collision-freedom idealization and no claim below depends on
bit-level digest values.
-/

namespace AuthService

/-! ## pkg/jwt (jwt.go) — token issuance and validation

Embeds `GenerateToken` / `ParseToken` / `ValidateToken` together with the
behaviour of the golang-jwt v5 library functions they call
(`jwt.NewWithClaims`, `SignedString`, `ParseWithClaims`): the parser first
runs the keyfunc (which in jwt.go rejects any non-HMAC signing method),
then verifies the signature, and only then validates the registered
time claims (expiry strictly before `now` ⇒ expired; `now` before
not-before ⇒ not yet valid). -/

namespace Jwt

/-- JWT signing algorithms that can appear in a token header. -/
inductive Alg where
  | hs256
  | hs384
  | hs512
  | rs256
  | es256
  | algNone
  deriving DecidableEq, Repr

/-- The keyfunc in `ParseToken` accepts exactly the HMAC family
(`token.Method.(*jwt.SigningMethodHMAC)` type assertion). -/
def Alg.isHMAC : Alg → Bool
  | .hs256 => true
  | .hs384 => true
  | .hs512 => true
  | _ => false

/-- The custom `Claims` struct of jwt.go: user id and username plus the
registered claims embedded by `GenerateToken`.  Times are seconds since
epoch. -/
structure Claims where
  userID : Nat
  username : String
  expiresAt : Int
  issuedAt : Int
  notBefore : Int
  issuer : String
  deriving DecidableEq, Repr

/-- Symbolic HMAC signature: records algorithm, signing input and key.
Two signatures are equal iff all three coincide (collision-freedom
idealization of HMAC-SHA2). -/
structure Sig where
  alg : Alg
  payload : Claims
  key : String
  deriving DecidableEq, Repr

/-- Symbolic signing operation (`token.SignedString([]byte(secret))`). -/
def hmacSign (alg : Alg) (payload : Claims) (key : String) : Sig :=
  ⟨alg, payload, key⟩

/-- A structurally well-formed compact JWT: header algorithm, payload
claims, and signature over the first two parts. -/
structure SignedToken where
  alg : Alg
  claims : Claims
  sig : Sig
  deriving DecidableEq, Repr

/-- `GenerateToken(userID, username, secret, expiration)`.  The three
`time.Now()` calls of one invocation are modelled as the single instant
`now`; `expiration` is the validity window in seconds. -/
def generateToken (userID : Nat) (username : String) (secret : String)
    (expiration : Int) (now : Int) : SignedToken :=
  let expiresAt : Int := now + expiration
  let claims : Claims :=
    { userID := userID
      username := username
      expiresAt := expiresAt
      issuedAt := now
      notBefore := now
      issuer := "auth-service" }
  { alg := .hs256, claims := claims, sig := hmacSign .hs256 claims secret }

/-- Failure cases of `ParseToken` (golang-jwt v5 error classes as
surfaced through jwt.go). -/
inductive JwtError where
  | malformedToken
  | unsupportedAlgorithm
  | signatureMismatch
  | expired
  | notYetValid
  deriving DecidableEq, Repr

/-- Observable checking steps performed by the v5 parser, recorded in
execution order: keyfunc algorithm check, signature comparison, time
claim validation. -/
inductive JwtStep where
  | algCheck
  | sigCompare
  | timeCheck
  deriving DecidableEq, Repr

/-- `ParseToken(tokenString, secret)` at instant `now`, instrumented with
the list of checks actually performed, in order.  Mirrors the golang-jwt
v5 `ParseWithClaims` flow used by jwt.go: keyfunc (non-HMAC method ⇒
error, nothing else runs), then `Method.Verify` against the key the
keyfunc returned, then the claims validator (expired iff ¬(now <
expires-at); not yet valid iff now < not-before). -/
def parseTokenT (tok : SignedToken) (secret : String) (now : Int) :
    Except JwtError Claims × List JwtStep :=
  if tok.alg.isHMAC = false then
    (.error .unsupportedAlgorithm, [.algCheck])
  else if tok.sig ≠ hmacSign tok.alg tok.claims secret then
    (.error .signatureMismatch, [.algCheck, .sigCompare])
  else if ¬ (now < tok.claims.expiresAt) then
    (.error .expired, [.algCheck, .sigCompare, .timeCheck])
  else if now < tok.claims.notBefore then
    (.error .notYetValid, [.algCheck, .sigCompare, .timeCheck])
  else
    (.ok tok.claims, [.algCheck, .sigCompare, .timeCheck])

/-- `ParseToken` proper: the result, forgetting the instrumentation. -/
def parseToken (tok : SignedToken) (secret : String) (now : Int) :
    Except JwtError Claims :=
  (parseTokenT tok secret now).1

/-- `ValidateToken(tokenString, secret)`: true iff `ParseToken` returns
no error. -/
def validateToken (tok : SignedToken) (secret : String) (now : Int) : Bool :=
  match parseToken tok secret now with
  | .ok _ => true
  | .error _ => false

end Jwt

/-! ## internal/domain/user/entity.go — password hashing and verification

`User.CheckPassword` guards empty inputs and then calls
`bcrypt.CompareHashAndPassword`, returning true iff that returns no
error.  The x/crypto/bcrypt library first parses the stored hash
(`newFromHash`: length, `$` prefix, version character, two-character
cost with range check, then 22 base64 salt characters), failing closed
with an error on any malformed hash; only for a structurally valid hash
does it recompute and compare the digest.  The digest computation itself
is abstracted as a `digestMatches` parameter (symbolic crypto): every
theorem about the guard structure holds for every instantiation of the
primitive. -/

namespace Bcrypt

/-- The bcrypt base64 alphabet used for the encoded salt. -/
def bcryptAlphabet : List Char :=
  "./ABCDEFGHIJKLMNOPQRSTUVWXYZabcdefghijklmnopqrstuvwxyz0123456789".toList

/-- Parsed form of a stored bcrypt hash: version characters, cost, the
22-character encoded salt and the trailing checksum. -/
structure Hashed where
  major : Char
  minor : Char
  cost : Int
  salt : List Char
  checksum : List Char
  deriving DecidableEq, Repr

/-- `strconv.Atoi` restricted to the two cost characters: optional sign
followed by digits, anything else is an error. -/
def atoi2 (c d : Char) : Option Int :=
  if c = '-' then
    if d.isDigit then some (-(((d.toNat : Int) - 48))) else none
  else if c = '+' then
    if d.isDigit then some ((d.toNat : Int) - 48) else none
  else if c.isDigit && d.isDigit then
    some (((c.toNat : Int) - 48) * 10 + ((d.toNat : Int) - 48))
  else none

/-- `newFromHash` + the salt base64 decode of x/crypto/bcrypt: `none`
exactly when `CompareHashAndPassword` would fail before any digest
comparison (hash too short, bad `$` prefix, version newer than `2`,
non-numeric or out-of-range cost, salt characters outside the bcrypt
base64 alphabet). -/
def parseBcryptHash (s : String) : Option Hashed :=
  let cs := s.toList
  if cs.length < 59 then none
  else
    match cs with
    | c0 :: c1 :: c2 :: rest =>
      if c0 ≠ '$' then none
      else if '2' < c1 then none
      else
        let verParsed : Char × List Char :=
          if c2 ≠ '$' then (c2, rest.drop 1) else ('2', rest)
        match verParsed.2 with
        | k0 :: k1 :: _ :: rest₂ =>
          match atoi2 k0 k1 with
          | none => none
          | some cost =>
            if cost < 4 ∨ 31 < cost then none
            else
              let salt := rest₂.take 22
              let checksum := rest₂.drop 22
              if salt.all (fun ch => bcryptAlphabet.contains ch) then
                some ⟨c1, verParsed.1, cost, salt, checksum⟩
              else none
        | _ => none
    | _ => none

/-- `bcrypt.CompareHashAndPassword(storedHash, plaintext) == nil`, with
the digest recomputation abstracted as `digestMatches`. -/
def compareHashAndPassword (digestMatches : Hashed → String → Bool)
    (storedHash plaintext : String) : Bool :=
  match parseBcryptHash storedHash with
  | none => false
  | some p => digestMatches p plaintext

/-- `User.CheckPassword(rawPassword)` where `storedPassword` is the
user's `Password` field. -/
def checkPassword (digestMatches : Hashed → String → Bool)
    (storedPassword rawPassword : String) : Bool :=
  if rawPassword = "" ∨ storedPassword = "" then false
  else compareHashAndPassword digestMatches storedPassword rawPassword

end Bcrypt

/-! ## internal/domain/user — entity, repository contract, service

`User` carries the fields the claims touch (timestamps omitted).  The
repository contract (repo.go) becomes a record of stateful operations
over an abstract store type `σ`; gorm's `ErrRecordNotFound` versus any
other error becomes `RepoError.notFound` versus `RepoError.storage`.
`dbRepo` is the faithful in-memory instance of the gorm-backed
implementation (repository.go): first-match lookups, `Create` assigns
the next primary key and appends, `Update`/`Save` replaces the row with
the same primary key. -/

namespace UserDomain

/-- The `User` entity (entity.go), claim-relevant fields. -/
structure User where
  id : Nat
  username : String
  email : String
  password : String
  githubID : Option Int
  avatarURL : String
  authType : String
  deriving DecidableEq, Repr

/-- `oauth2.GitHubUser` as consumed by `Service.LoginWithGitHub`
(pkg/oauth2 itself is not under src/; the fields are exactly the ones
service.go reads: numeric ID, login, email, avatar URL). -/
structure GitHubUser where
  id : Int
  login : String
  email : String
  avatarURL : String
  deriving DecidableEq, Repr

/-- Repository failure: gorm's record-not-found condition versus a
transport/storage error. -/
inductive RepoError where
  | notFound
  | storage (msg : String)
  deriving DecidableEq, Repr

/-- The repository contract of repo.go over an abstract store `σ`
(claim-relevant operations).  `create` returns the stored user (gorm
fills in the assigned primary key) together with the new store. -/
structure Repo (σ : Type) where
  create : σ → User → Except RepoError (User × σ)
  findByUsername : σ → String → Except RepoError User
  existsByUsername : σ → String → Except RepoError Bool
  findByGitHubID : σ → Int → Except RepoError User
  findByEmail : σ → String → Except RepoError User
  update : σ → User → Except RepoError σ

/-- `Service.LoginWithGitHub` (service.go), translated match-for-match:
any error from `FindByGitHubID` falls through to the email lookup; any
error from `FindByEmail` falls through to creation; the error of
`ExistsByUsername` is discarded (`exists, _ :=`, and the gorm
implementation returns `false` alongside an error); only `Update` and
`Create` errors are returned to the caller. -/
def loginWithGitHub {σ : Type} (repo : Repo σ) (st : σ) (g : GitHubUser) :
    Except String (User × σ) :=
  match repo.findByGitHubID st g.id with
  | .ok existingUser =>
    let existingUser := { existingUser with avatarURL := g.avatarURL }
    match repo.update st existingUser with
    | .ok st₂ => .ok (existingUser, st₂)
    | .error _ => .error "更新用户信息失败"
  | .error _ =>
    let createStep : Except String (User × σ) :=
      let newUser : User :=
        { id := 0
          username := g.login
          email := g.email
          password := ""
          githubID := some g.id
          avatarURL := g.avatarURL
          authType := "github" }
      let usernameExists : Bool :=
        match repo.existsByUsername st newUser.username with
        | .ok b => b
        | .error _ => false
      let newUser :=
        if usernameExists then
          { newUser with username := g.login ++ "_" ++ toString g.id }
        else newUser
      match repo.create st newUser with
      | .ok (created, st₂) => .ok (created, st₂)
      | .error _ => .error "创建用户失败"
    if g.email ≠ "" then
      match repo.findByEmail st g.email with
      | .ok existingUser =>
        let existingUser :=
          { existingUser with
              githubID := some g.id
              avatarURL := g.avatarURL
              authType := "github" }
        match repo.update st existingUser with
        | .ok st₂ => .ok (existingUser, st₂)
        | .error _ => .error "绑定 GitHub 账号失败"
      | .error _ => createStep
    else createStep

/-- In-memory relational store: the user table plus the next primary key
the database will assign. -/
structure Db where
  users : List User
  nextId : Nat
  deriving DecidableEq, Repr

/-- `FindByGitHubID` of repository.go: first row whose github_id
matches, else gorm record-not-found. -/
def dbFindByGitHubID (db : Db) (gid : Int) : Except RepoError User :=
  match db.users.find? (fun v => v.githubID == some gid) with
  | some u => .ok u
  | none => .error .notFound

/-- `FindByEmail` of repository.go. -/
def dbFindByEmail (db : Db) (email : String) : Except RepoError User :=
  match db.users.find? (fun v => v.email == email) with
  | some u => .ok u
  | none => .error .notFound

/-- `FindByUsername` of repository.go. -/
def dbFindByUsername (db : Db) (username : String) : Except RepoError User :=
  match db.users.find? (fun v => v.username == username) with
  | some u => .ok u
  | none => .error .notFound

/-- `ExistsByUsername` of repository.go (a count query). -/
def dbExistsByUsername (db : Db) (username : String) : Except RepoError Bool :=
  .ok (db.users.any (fun v => v.username == username))

/-- `Create` of repository.go: the database assigns the next primary key
and the row is appended. -/
def dbCreate (db : Db) (u : User) : Except RepoError (User × Db) :=
  let created := { u with id := db.nextId }
  .ok (created, ⟨db.users ++ [created], db.nextId + 1⟩)

/-- `Update` of repository.go (gorm `Save`): replaces the row with the
same primary key. -/
def dbUpdate (db : Db) (u : User) : Except RepoError Db :=
  .ok ⟨db.users.map (fun v => if v.id = u.id then u else v), db.nextId⟩

/-- The gorm-backed repository instance over the in-memory store. -/
def dbRepo : Repo Db :=
  { create := dbCreate
    findByUsername := dbFindByUsername
    existsByUsername := dbExistsByUsername
    findByGitHubID := dbFindByGitHubID
    findByEmail := dbFindByEmail
    update := dbUpdate }

/-- Database sanity: primary keys are distinct and below the next key to
be assigned. -/
def wellFormedDb (db : Db) : Prop :=
  (db.users.map User.id).Nodup ∧ ∀ u ∈ db.users, u.id < db.nextId

/-- The record produced by refreshing a found user's avatar (step 1 of
`LoginWithGitHub`). -/
def avatarRefreshed (u : User) (g : GitHubUser) : User :=
  { u with avatarURL := g.avatarURL }

/-- The record produced by linking a GitHub identity onto a user found
by email (step 2 of `LoginWithGitHub`). -/
def githubLinked (u : User) (g : GitHubUser) : User :=
  { u with
      githubID := some g.id
      avatarURL := g.avatarURL
      authType := "github" }

/-- The record `LoginWithGitHub` hands to `Create` in step 3, after the
database has assigned the primary key `newId`. -/
def createdUser (db : Db) (g : GitHubUser) (newId : Nat) : User :=
  { id := newId
    username := if db.users.any (fun v => v.username == g.login)
                then g.login ++ "_" ++ toString g.id else g.login
    email := g.email
    password := ""
    githubID := some g.id
    avatarURL := g.avatarURL
    authType := "github" }

/-- The in-memory effect of gorm `Save`: replace the row whose primary
key matches. -/
def replacedById (db : Db) (u : User) : Db :=
  ⟨db.users.map (fun v => if v.id = u.id then u else v), db.nextId⟩

/-- `dbRepo` with the external-provider lookup forced to a fixed
outcome — used to compare how `LoginWithGitHub` treats different lookup
failures. -/
def withGitHubLookup {σ : Type} (repo : Repo σ) (f : σ → Int → Except RepoError User) :
    Repo σ :=
  { repo with findByGitHubID := f }

end UserDomain

/-! ## pkg/session + pkg/redis — the ephemeral handshake store

`session.Manager` stores one `OAuth2State` per session id under the key
`oauth2:session:<id>` with a 10-minute expiry (`redis.Client.Set`),
reads it back with `Get` (`ValidateOAuth2Session`, which also compares
the state byte-for-byte and re-checks the age), and removes it with a
separate `Del` (`DeleteOAuth2Session`).  The Redis store is a list of
(key, value, absolute expiry deadline) entries; JSON marshal/unmarshal
of the state struct is modelled as the identity round-trip.  `Race`
runs two callback deliveries for the same handshake against the shared
store, one primitive store operation per step, under an explicit
interleaving schedule. -/

namespace Session

/-- `session.OAuth2State`. -/
structure OAuth2State where
  state : String
  createdAt : Int
  userAgent : String
  clientIP : String
  deriving DecidableEq, Repr

/-- The Redis keyspace: key, stored value, absolute expiry deadline. -/
abbrev Store := List (String × OAuth2State × Int)

/-- `redis.Client.Set` with expiration: replaces any entry under the
same key. -/
def redisSet (store : Store) (key : String) (v : OAuth2State)
    (deadline : Int) : Store :=
  (key, v, deadline) :: store.filter (fun e => !(e.1 == key))

/-- `redis.Client.Get`: `none` both for a missing key and for an entry
whose deadline has passed (redis.Nil in either case). -/
def redisGet (store : Store) (now : Int) (key : String) : Option OAuth2State :=
  match store.find? (fun e => e.1 == key) with
  | some (_, v, d) => if now < d then some v else none
  | none => none

/-- `redis.Client.Del`. -/
def redisDel (store : Store) (key : String) : Store :=
  store.filter (fun e => !(e.1 == key))

/-- The key prefixing of `session.Manager`. -/
def sessionKey (sessionID : String) : String :=
  "oauth2:session:" ++ sessionID

/-- `Manager.CreateOAuth2Session` at instant `now` with the session id
the uuid generator produced: stores the state under a 10-minute
(600-second) expiry. -/
def createOAuth2Session (store : Store) (now : Int)
    (sessionID state userAgent clientIP : String) : Store :=
  redisSet store (sessionKey sessionID) ⟨state, now, userAgent, clientIP⟩ (now + 600)

/-- Failure cases of `Manager.ValidateOAuth2Session` (wrapped `fmt`
errors in the source, distinguishable internally). -/
inductive SessionError where
  | notFound
  | stateMismatch
  | expired
  deriving DecidableEq, Repr

/-- `Manager.ValidateOAuth2Session`: a Redis Get (the store is NOT
modified), then the byte-for-byte state comparison, then the 10-minute
age re-check. -/
def validateOAuth2Session (store : Store) (now : Int)
    (sessionID receivedState : String) : Except SessionError OAuth2State :=
  match redisGet store now (sessionKey sessionID) with
  | none => .error .notFound
  | some stateInfo =>
    if stateInfo.state ≠ receivedState then .error .stateMismatch
    else if 600 < now - stateInfo.createdAt then .error .expired
    else .ok stateInfo

/-- `Manager.DeleteOAuth2Session`: a separate Redis Del. -/
def deleteOAuth2Session (store : Store) (sessionID : String) : Store :=
  redisDel store (sessionKey sessionID)

/-- Progress of one callback's handshake consumption: before its Get;
validated (Get + checks succeeded) but not yet deleted; finished,
recording whether its validation succeeded. -/
inductive Phase where
  | ready
  | validated
  | finished (ok : Bool)
  deriving DecidableEq, Repr

/-- Two callback deliveries A and B for the same handshake, sharing the
Redis store. -/
structure Race where
  store : Store
  now : Int
  sessionID : String
  received : String
  a : Phase
  b : Phase
  deriving DecidableEq, Repr

/-- One consumer as the handler runs it: `ValidateOAuth2Session` as one
step (a read that leaves the store unchanged), then
`DeleteOAuth2Session` as a second, separate step; a failed validation
aborts before the delete. -/
def stepConsumer (store : Store) (now : Int) (sessionID received : String) :
    Phase → Phase × Store
  | .ready =>
    match validateOAuth2Session store now sessionID received with
    | .ok _ => (.validated, store)
    | .error _ => (.finished false, store)
  | .validated => (.finished true, deleteOAuth2Session store sessionID)
  | .finished ok => (.finished ok, store)

/-- Modelled from the spec: the atomic `TakeOnce(key)` of §4.3 — read
and delete as one indivisible store operation.  The repository has no
such operation (its manager performs a separate Get and a separate
Del); this definition exists to compare the code's interleaved
behaviour against the specified one. -/
def takeOnceAtomic (store : Store) (now : Int) (sessionID : String) :
    Except SessionError (OAuth2State × Store) :=
  match redisGet store now (sessionKey sessionID) with
  | none => .error .notFound
  | some v => .ok (v, redisDel store (sessionKey sessionID))

/-- One consumer under the spec's atomic discipline: take-and-delete in
a single step, followed by the state and age checks on the taken
value. -/
def stepConsumerAtomic (store : Store) (now : Int) (sessionID received : String) :
    Phase → Phase × Store
  | .ready =>
    match takeOnceAtomic store now sessionID with
    | .ok (v, store₂) =>
      if v.state = received ∧ ¬ 600 < now - v.createdAt then
        (.finished true, store₂)
      else
        (.finished false, store₂)
    | .error _ => (.finished false, store)
  | .validated => (.finished true, store)
  | .finished ok => (.finished ok, store)

/-- Advance consumer A (`pickA = true`) or B by one primitive step. -/
def stepRace (consume : Store → Int → String → String → Phase → Phase × Store)
    (r : Race) (pickA : Bool) : Race :=
  if pickA then
    let s := consume r.store r.now r.sessionID r.received r.a
    { r with a := s.1, store := s.2 }
  else
    let s := consume r.store r.now r.sessionID r.received r.b
    { r with b := s.1, store := s.2 }

/-- Run an interleaving schedule (`true` = step A, `false` = step B). -/
def runRace (consume : Store → Int → String → String → Phase → Phase × Store)
    (r : Race) : List Bool → Race
  | [] => r
  | pick :: rest => runRace consume (stepRace consume r pick) rest

end Session

/-! ## internal/api/handler — the HTTP boundary

`AuthHandler.Login` (auth.go) and `OAuth2Handler.GitHubCallback`
(oauth2.go, the session-manager version).  Responses are (status, body)
pairs; gin binding validation is the declared tag rules; the external
outcomes a request meets (Redis Del transport result, provider
exchange result) are fields of the request environment. -/

namespace Handler

/-- `LoginRequest` of auth.go. -/
structure LoginRequest where
  username : String
  password : String
  deriving DecidableEq, Repr

/-- Body of an HTTP JSON response (claim-relevant shapes). -/
inductive RespBody where
  | errMsg (msg : String)
  | loginData (token : Jwt.SignedToken) (userId : Nat) (username : String)
  deriving DecidableEq, Repr

/-- An HTTP response: status code and JSON body. -/
structure HttpResponse where
  status : Nat
  body : RespBody
  deriving DecidableEq, Repr

/-- The gin binding tags on `LoginRequest`:
`required,min=3,max=20` / `required,min=6`. -/
def bindLoginRequest (req : LoginRequest) : Bool :=
  3 ≤ req.username.length && req.username.length ≤ 20 && 6 ≤ req.password.length

/-- `Service.GetByUsername`: empty-name guard, then the repository
lookup. -/
def getByUsername (db : UserDomain.Db) (username : String) :
    Except String UserDomain.User :=
  if username = "" then .error "用户名不能为空"
  else
    match UserDomain.dbFindByUsername db username with
    | .ok u => .ok u
    | .error .notFound => .error "record not found"
    | .error (.storage msg) => .error msg

/-- `AuthHandler.Login`: any error from the user lookup and a failed
password check both collapse to 401 with the one generic message; on
success a 24-hour token is issued. -/
def login (digestMatches : Bcrypt.Hashed → String → Bool) (db : UserDomain.Db)
    (jwtSecret : String) (now : Int) (req : LoginRequest) : HttpResponse :=
  if bindLoginRequest req = false then
    ⟨400, .errMsg "无效的请求参数"⟩
  else
    match getByUsername db req.username with
    | .error _ => ⟨401, .errMsg "用户名或密码错误"⟩
    | .ok u =>
      if Bcrypt.checkPassword digestMatches u.password req.password = false then
        ⟨401, .errMsg "用户名或密码错误"⟩
      else
        ⟨200, .loginData (Jwt.generateToken u.id u.username jwtSecret 86400 now)
                u.id u.username⟩

/-- The inputs `GitHubCallback` reads from the HTTP request. -/
structure CallbackRequest where
  cookieSessionID : Option String
  code : String
  state : String
  deriving DecidableEq, Repr

/-- The environment one callback request executes against: the shared
session store and clock, the outcome of the Redis Del transport call,
the provider's exchange outcome for this request's code, the user
database and the signing secret. -/
structure CallbackEnv where
  store : Session.Store
  now : Int
  delOutcome : Except String Unit
  exchangeResult : Except String UserDomain.GitHubUser
  db : UserDomain.Db
  jwtSecret : String
  deriving Repr

/-- Where the callback redirects: the error page with a message, or the
login-success page carrying the issued token. -/
inductive CallbackResult where
  | errorRedirect (message : String)
  | successRedirect (token : Jwt.SignedToken) (userId : Nat) (username : String)
      (authType : String)
  deriving DecidableEq, Repr

/-- Externally observable calls the handler makes, in order. -/
inductive CallbackEvent where
  | validateCalled
  | deleteCalled
  | deleteFailureLogged
  | exchangeCalled
  | reconcileCalled
  | tokenIssued
  deriving DecidableEq, Repr

/-- `OAuth2Handler.GitHubCallback` (session-manager version): cookie
check, code check, `ValidateOAuth2Session`, `DeleteOAuth2Session`
(whose failure is logged as a warning and does not return), provider
exchange, `LoginWithGitHub`, token issuance, success redirect. -/
def gitHubCallback (env : CallbackEnv) (req : CallbackRequest) :
    CallbackResult × List CallbackEvent :=
  match req.cookieSessionID with
  | none => (.errorRedirect "缺少会话信息", [])
  | some sessionID =>
    if req.code = "" then (.errorRedirect "缺少授权码", [])
    else
      match Session.validateOAuth2Session env.store env.now sessionID req.state with
      | .error _ => (.errorRedirect "状态码验证失败", [.validateCalled])
      | .ok _ =>
        let delEvents : List CallbackEvent :=
          match env.delOutcome with
          | .ok _ => [.deleteCalled]
          | .error _ => [.deleteCalled, .deleteFailureLogged]
        match env.exchangeResult with
        | .error _ =>
          (.errorRedirect "GitHub授权失败",
           .validateCalled :: delEvents ++ [.exchangeCalled])
        | .ok githubUser =>
          match UserDomain.loginWithGitHub UserDomain.dbRepo env.db githubUser with
          | .error _ =>
            (.errorRedirect "用户登录失败",
             .validateCalled :: delEvents ++ [.exchangeCalled, .reconcileCalled])
          | .ok (u, _) =>
            (.successRedirect
               (Jwt.generateToken u.id u.username env.jwtSecret 86400 env.now)
               u.id u.username u.authType,
             .validateCalled :: delEvents
               ++ [.exchangeCalled, .reconcileCalled, .tokenIssued])

end Handler

end AuthService

namespace AuthService

open Jwt UserDomain Session Handler

/-- **C3.** Token round-trip: a token produced by `GenerateToken`
immediately validates via `ParseToken` with the same secret and the
returned claims carry the identical subject user id and username;
validating with any different secret fails with `SignatureMismatch`; and
validating with the correct secret at any time at or after the expiry
instant fails with `Expired`. -/
theorem jwt_roundtrip_same_secret_diff_secret_expired
    (userID : Nat) (username secret : String) (validity now : Int)
    (hv : 0 < validity) :
    (∃ c : Claims,
        parseToken (generateToken userID username secret validity now) secret now
          = .ok c
        ∧ c.userID = userID ∧ c.username = username)
    ∧ (∀ secret₂ : String, secret₂ ≠ secret →
        parseToken (generateToken userID username secret validity now) secret₂ now
          = .error .signatureMismatch)
    ∧ (∀ t : Int, now + validity ≤ t →
        parseToken (generateToken userID username secret validity now) secret t
          = .error .expired) := by
  refine ⟨⟨(generateToken userID username secret validity now).claims, ?_, rfl, rfl⟩, ?_, ?_⟩
  · simp [parseToken, parseTokenT, generateToken, hmacSign, Alg.isHMAC, hv, Int.lt_add_of_pos_right]
  · intro secret₂ hne
    simp [parseToken, parseTokenT, generateToken, hmacSign, Alg.isHMAC, Sig.mk.injEq,
      Ne.symm hne]
  · intro t ht
    simp [parseToken, parseTokenT, generateToken, hmacSign, Alg.isHMAC, not_lt.mpr ht]

/-- Witness for C3 at a concrete input. -/
theorem jwt_roundtrip_witness :
    (0 : Int) < 86400
    ∧ ((∃ c : Claims,
          parseToken (generateToken 7 "alice" "k1" 86400 1000) "k1" 1000 = .ok c
          ∧ c.userID = 7 ∧ c.username = "alice")
      ∧ (∀ secret₂ : String, secret₂ ≠ "k1" →
          parseToken (generateToken 7 "alice" "k1" 86400 1000) secret₂ 1000
            = .error .signatureMismatch)
      ∧ (∀ t : Int, 1000 + 86400 ≤ t →
          parseToken (generateToken 7 "alice" "k1" 86400 1000) "k1" t
            = .error .expired)) :=
  ⟨by decide, jwt_roundtrip_same_secret_diff_secret_expired 7 "alice" "k1" 86400 1000 (by decide)⟩

/-- **C4.** Algorithm-confusion defense: a token whose header declares a
non-HMAC algorithm is rejected with `UnsupportedAlgorithm` and no
signature comparison step is ever performed — even when the signature
would verify; and the temporal validity check runs only after the
signature comparison has succeeded. -/
theorem jwt_alg_confusion_rejected_before_sig
    (tok : SignedToken) (secret : String) (now : Int) :
    (tok.alg.isHMAC = false →
        (parseTokenT tok secret now).1 = .error .unsupportedAlgorithm
        ∧ JwtStep.sigCompare ∉ (parseTokenT tok secret now).2)
    ∧ (JwtStep.timeCheck ∈ (parseTokenT tok secret now).2 →
        tok.sig = hmacSign tok.alg tok.claims secret
        ∧ (parseTokenT tok secret now).2
            = [.algCheck, .sigCompare, .timeCheck]) := by
  constructor
  · intro halg
    simp [parseTokenT, halg]
  · intro hmem
    by_cases halg : tok.alg.isHMAC = false
    · simp [parseTokenT, halg] at hmem
    · by_cases hsig : tok.sig = hmacSign tok.alg tok.claims secret
      · refine ⟨hsig, ?_⟩
        by_cases hexp : now < tok.claims.expiresAt <;>
          by_cases hnbf : now < tok.claims.notBefore <;>
            simp [parseTokenT, halg, hsig, hexp, hnbf]
      · simp [parseTokenT, halg, hsig] at hmem

/-- Witness for C4 at a concrete non-HMAC token whose signature would
verify, and at a concrete HMAC token reaching the time check. -/
theorem jwt_alg_confusion_witness :
    ((SignedToken.mk .rs256
        ⟨7, "alice", 2000, 1000, 1000, "auth-service"⟩
        (hmacSign .rs256 ⟨7, "alice", 2000, 1000, 1000, "auth-service"⟩ "k1")).alg.isHMAC
        = false
      → (parseTokenT
            (SignedToken.mk .rs256
              ⟨7, "alice", 2000, 1000, 1000, "auth-service"⟩
              (hmacSign .rs256 ⟨7, "alice", 2000, 1000, 1000, "auth-service"⟩ "k1"))
            "k1" 1000).1 = .error .unsupportedAlgorithm
        ∧ JwtStep.sigCompare ∉ (parseTokenT
            (SignedToken.mk .rs256
              ⟨7, "alice", 2000, 1000, 1000, "auth-service"⟩
              (hmacSign .rs256 ⟨7, "alice", 2000, 1000, 1000, "auth-service"⟩ "k1"))
            "k1" 1000).2)
    ∧ (JwtStep.timeCheck ∈ (parseTokenT
          (SignedToken.mk .rs256
            ⟨7, "alice", 2000, 1000, 1000, "auth-service"⟩
            (hmacSign .rs256 ⟨7, "alice", 2000, 1000, 1000, "auth-service"⟩ "k1"))
          "k1" 1000).2 →
        (SignedToken.mk .rs256
            ⟨7, "alice", 2000, 1000, 1000, "auth-service"⟩
            (hmacSign .rs256 ⟨7, "alice", 2000, 1000, 1000, "auth-service"⟩ "k1")).sig
          = hmacSign .rs256 ⟨7, "alice", 2000, 1000, 1000, "auth-service"⟩ "k1"
        ∧ (parseTokenT
            (SignedToken.mk .rs256
              ⟨7, "alice", 2000, 1000, 1000, "auth-service"⟩
              (hmacSign .rs256 ⟨7, "alice", 2000, 1000, 1000, "auth-service"⟩ "k1"))
            "k1" 1000).2 = [.algCheck, .sigCompare, .timeCheck]) :=
  jwt_alg_confusion_rejected_before_sig _ "k1" 1000

/-- **C8.** Every issuance embeds issued-at = not-before = the issuance
instant and expires-at = issuance instant + validity, so for a positive
validity window the expiry is strictly after issued-at by exactly that
window. -/
theorem jwt_issue_claim_times
    (userID : Nat) (username secret : String) (validity now : Int) :
    (generateToken userID username secret validity now).claims.issuedAt = now
    ∧ (generateToken userID username secret validity now).claims.notBefore = now
    ∧ (generateToken userID username secret validity now).claims.expiresAt
        = now + validity
    ∧ (0 < validity →
        (generateToken userID username secret validity now).claims.issuedAt
          < (generateToken userID username secret validity now).claims.expiresAt) := by
  refine ⟨rfl, rfl, rfl, ?_⟩
  intro hv
  simp [generateToken]
  omega

/-- **C9.** Credential verification is total (it is a Lean function into
`Bool`, so it returns a boolean on every input) and fails closed: for
every digest primitive, it returns false whenever the plaintext is
empty, the stored hash is empty, or the stored hash is not a well-formed
bcrypt hash — in each case without consulting the digest primitive's
verdict. -/
theorem checkPassword_fails_closed
    (digestMatches : Bcrypt.Hashed → String → Bool)
    (storedHash plaintext : String) :
    (plaintext = "" → Bcrypt.checkPassword digestMatches storedHash plaintext = false)
    ∧ (storedHash = "" → Bcrypt.checkPassword digestMatches storedHash plaintext = false)
    ∧ (Bcrypt.parseBcryptHash storedHash = none →
        Bcrypt.checkPassword digestMatches storedHash plaintext = false) := by
  refine ⟨fun h => ?_, fun h => ?_, fun h => ?_⟩
  · simp [Bcrypt.checkPassword, h]
  · simp [Bcrypt.checkPassword, h]
  · by_cases hp : plaintext = "" ∨ storedHash = ""
    · simp [Bcrypt.checkPassword, hp]
    · simp [Bcrypt.checkPassword, hp, Bcrypt.compareHashAndPassword, h]

/-- Witness for C9: even with a digest primitive that always answers
true, the empty-plaintext, empty-hash and malformed-hash cases all
return false (the string below is too short to be a bcrypt hash). -/
theorem checkPassword_fails_closed_witness :
    (("" : String) = "" →
      Bcrypt.checkPassword (fun _ _ => true) "$2a$10$short" "" = false)
    ∧ (("" : String) = "" →
      Bcrypt.checkPassword (fun _ _ => true) "" "secret1" = false)
    ∧ (Bcrypt.parseBcryptHash "$2a$10$short" = none →
      Bcrypt.checkPassword (fun _ _ => true) "$2a$10$short" "secret1" = false) :=
  ⟨(checkPassword_fails_closed (fun _ _ => true) "$2a$10$short" "").1,
   (checkPassword_fails_closed (fun _ _ => true) "" "secret1").2.1,
   (checkPassword_fails_closed (fun _ _ => true) "$2a$10$short" "secret1").2.2⟩

section UserDomainLemmas

open UserDomain

/-- Replacing, by primary key, the first `p`-match of a list with a
record that still satisfies `p` keeps it the first `p`-match. -/
theorem find_replaceById (l : List User) (p : User → Bool) (u u' : User)
    (hfind : l.find? p = some u) (hid : u'.id = u.id) (hp : p u' = true) :
    (l.map (fun v => if v.id = u'.id then u' else v)).find? p = some u' := by
  induction l with
  | nil => simp at hfind
  | cons h t ih =>
    by_cases hh : h.id = u'.id
    · simp [hh, List.find?_cons, hp]
    · rcases hph : p h with _ | _
      · rw [List.find?_cons_of_neg _ (by simp [hph])] at hfind
        simp only [List.map_cons, if_neg hh]
        rw [List.find?_cons_of_neg _ (by simp [hph])]
        exact ih hfind
      · rw [List.find?_cons_of_pos _ hph] at hfind
        have hhu : h = u := Option.some_injective _ hfind
        refine absurd ?_ hh
        rw [hhu, ← hid]

/-- Replacing, by primary key, some element of a list in which nothing
satisfies `p` with a record that does satisfy `p` makes the replacement
the first `p`-match. -/
theorem find_replaceById_fresh (l : List User) (p : User → Bool) (u' w : User)
    (hall : ∀ v ∈ l, p v = false) (hw : w ∈ l) (hid : u'.id = w.id)
    (hp : p u' = true) :
    (l.map (fun v => if v.id = u'.id then u' else v)).find? p = some u' := by
  induction l with
  | nil => simp at hw
  | cons h t ih =>
    by_cases hh : h.id = u'.id
    · simp [hh, List.find?_cons, hp]
    · have hwt : w ∈ t := by
        rcases List.mem_cons.mp hw with hwh | hwt
        · exact absurd (hwh ▸ hid.symm) hh
        · exact hwt
      simp only [List.map_cons, if_neg hh]
      rw [List.find?_cons_of_neg _ (by simp [hall h (List.mem_cons_self h t)])]
      exact ih (fun v hv => hall v (List.mem_cons_of_mem h hv)) hwt

/-- Appending a `p`-satisfying record to a list in which nothing
satisfies `p` makes it the first `p`-match. -/
theorem find_append_right (l : List User) (p : User → Bool) (u' : User)
    (hall : ∀ v ∈ l, p v = false) (hp : p u' = true) :
    (l ++ [u']).find? p = some u' := by
  induction l with
  | nil => simp [List.find?_cons, hp]
  | cons h t ih =>
    rw [List.cons_append, List.find?_cons_of_neg _ (by simp [hall h (List.mem_cons_self h t)])]
    exact ih (fun v hv => hall v (List.mem_cons_of_mem h hv))

/-- Path characterization: a hit on the external-provider identifier
refreshes the avatar and saves the record. -/
theorem loginWithGitHub_github_hit (db : Db) (g : GitHubUser) (u : User)
    (h : db.users.find? (fun v => v.githubID == some g.id) = some u) :
    loginWithGitHub dbRepo db g
      = .ok (avatarRefreshed u g, replacedById db (avatarRefreshed u g)) := by
  simp [loginWithGitHub, dbRepo, dbFindByGitHubID, dbUpdate, h, avatarRefreshed,
    replacedById]

/-- Path characterization: a miss on the external-provider identifier
followed by a hit on a non-empty email links the GitHub account to that
record. -/
theorem loginWithGitHub_email_hit (db : Db) (g : GitHubUser) (v0 : User)
    (hq : db.users.find? (fun v => v.githubID == some g.id) = none)
    (he : g.email ≠ "")
    (hem : db.users.find? (fun v => v.email == g.email) = some v0) :
    loginWithGitHub dbRepo db g
      = .ok (githubLinked v0 g, replacedById db (githubLinked v0 g)) := by
  simp [loginWithGitHub, dbRepo, dbFindByGitHubID, dbFindByEmail, dbUpdate, hq, he,
    hem, githubLinked, replacedById]

/-- Path characterization: with no match on the external identifier and
none on a non-empty email, a new delegated user is created, with the
username disambiguated by appending the external numeric identifier
exactly when the login name is taken. -/
theorem loginWithGitHub_create_path (db : Db) (g : GitHubUser)
    (hq : db.users.find? (fun v => v.githubID == some g.id) = none)
    (hemail : g.email = "" ∨ db.users.find? (fun v => v.email == g.email) = none) :
    loginWithGitHub dbRepo db g
      = .ok (createdUser db g db.nextId,
             ⟨db.users ++ [createdUser db g db.nextId], db.nextId + 1⟩) := by
  by_cases he : g.email = ""
  · rcases hb : db.users.any (fun v => v.username == g.login) with _ | _ <;>
      simp [loginWithGitHub, dbRepo, dbFindByGitHubID, dbExistsByUsername, dbCreate,
        hq, he, hb, createdUser]
  · have hem : db.users.find? (fun v => v.email == g.email) = none := by
      rcases hemail with h | h
      · exact absurd h he
      · exact h
    rcases hb : db.users.any (fun v => v.username == g.login) with _ | _ <;>
      simp [loginWithGitHub, dbRepo, dbFindByGitHubID, dbFindByEmail, dbExistsByUsername,
        dbCreate, hq, he, hem, hb, createdUser]

end UserDomainLemmas

/-- **C6.** When reconciliation reaches the create step (no user
matches the external id; no user matches a non-empty email), the new
user's username is the external login name when free and otherwise the
login name with an underscore and the external numeric identifier
appended, computed deterministically; the new user has auth-kind
`github` (delegated) and no password hash. -/
theorem reconcile_create_disambiguation (db : Db) (g : GitHubUser)
    (hgid : db.users.find? (fun v => v.githubID == some g.id) = none)
    (hemail : g.email = "" ∨ db.users.find? (fun v => v.email == g.email) = none) :
    loginWithGitHub dbRepo db g
      = .ok (createdUser db g db.nextId,
             ⟨db.users ++ [createdUser db g db.nextId], db.nextId + 1⟩)
    ∧ (createdUser db g db.nextId).username
        = (if db.users.any (fun v => v.username == g.login)
           then g.login ++ "_" ++ toString g.id
           else g.login)
    ∧ (createdUser db g db.nextId).authType = "github"
    ∧ (createdUser db g db.nextId).password = "" :=
  ⟨loginWithGitHub_create_path db g hgid hemail, rfl, rfl, rfl⟩

/-- Witness for C6: the spec's collision scenario — "alice" is already
registered locally, a delegated login with external login "alice" and
id 42 creates "alice_42" with a fresh id, delegated auth-kind and no
password hash. -/
theorem reconcile_create_disambiguation_witness :
    (Db.mk [⟨1, "alice", "alice@x.com", "hash", none, "", "local"⟩] 2).users.find?
        (fun v => v.githubID == some (42 : Int)) = none
    ∧ (loginWithGitHub dbRepo
          (Db.mk [⟨1, "alice", "alice@x.com", "hash", none, "", "local"⟩] 2)
          ⟨42, "alice", "", "av"⟩
        = .ok (createdUser
                 (Db.mk [⟨1, "alice", "alice@x.com", "hash", none, "", "local"⟩] 2)
                 ⟨42, "alice", "", "av"⟩ 2,
               ⟨[⟨1, "alice", "alice@x.com", "hash", none, "", "local"⟩,
                 createdUser
                   (Db.mk [⟨1, "alice", "alice@x.com", "hash", none, "", "local"⟩] 2)
                   ⟨42, "alice", "", "av"⟩ 2], 3⟩))
    ∧ (createdUser
         (Db.mk [⟨1, "alice", "alice@x.com", "hash", none, "", "local"⟩] 2)
         ⟨42, "alice", "", "av"⟩ 2).username = "alice_42"
    ∧ (createdUser
         (Db.mk [⟨1, "alice", "alice@x.com", "hash", none, "", "local"⟩] 2)
         ⟨42, "alice", "", "av"⟩ 2).id = 2 := by
  have h := reconcile_create_disambiguation
    (Db.mk [⟨1, "alice", "alice@x.com", "hash", none, "", "local"⟩] 2)
    ⟨42, "alice", "", "av"⟩ (by decide) (Or.inl rfl)
  exact ⟨by decide, h.1, by decide, by decide⟩

/-- **C5.** Reconciliation is idempotent: if one `LoginWithGitHub` call
over the in-memory repository succeeds, a second call with the same
external identity and no intervening changes also succeeds, returns a
user with the same user id, creates no further record, and the first
call created at most one record. -/
theorem reconcile_idempotent (db : Db) (g : GitHubUser) (u₁ : User) (db₁ : Db)
    (h1 : loginWithGitHub dbRepo db g = .ok (u₁, db₁)) :
    ∃ u₂ db₂,
      loginWithGitHub dbRepo db₁ g = .ok (u₂, db₂)
      ∧ u₂.id = u₁.id
      ∧ db₂.users.length = db₁.users.length
      ∧ db₁.users.length ≤ db.users.length + 1 := by
  rcases hfind : db.users.find? (fun v => v.githubID == some g.id) with _ | u0
  · have hall : ∀ v ∈ db.users, (v.githubID == some g.id) = false :=
      fun v hv => by simpa using List.find?_eq_none.mp hfind v hv
    by_cases he : g.email = ""
    · rw [loginWithGitHub_create_path db g hfind (Or.inl he)] at h1
      simp only [Except.ok.injEq, Prod.mk.injEq] at h1
      obtain ⟨hu, hdb⟩ := h1
      subst hu hdb
      have hfind₂ : (db.users ++ [createdUser db g db.nextId]).find?
          (fun v => v.githubID == some g.id) = some (createdUser db g db.nextId) :=
        find_append_right db.users _ _ hall (by simp [createdUser])
      refine ⟨_, _, loginWithGitHub_github_hit _ g _ hfind₂, rfl, ?_, ?_⟩
      · simp [replacedById]
      · simp
    · rcases hem : db.users.find? (fun v => v.email == g.email) with _ | v0
      · rw [loginWithGitHub_create_path db g hfind (Or.inr hem)] at h1
        simp only [Except.ok.injEq, Prod.mk.injEq] at h1
        obtain ⟨hu, hdb⟩ := h1
        subst hu hdb
        have hfind₂ : (db.users ++ [createdUser db g db.nextId]).find?
            (fun v => v.githubID == some g.id) = some (createdUser db g db.nextId) :=
          find_append_right db.users _ _ hall (by simp [createdUser])
        refine ⟨_, _, loginWithGitHub_github_hit _ g _ hfind₂, rfl, ?_, ?_⟩
        · simp [replacedById]
        · simp
      · rw [loginWithGitHub_email_hit db g v0 hfind he hem] at h1
        simp only [Except.ok.injEq, Prod.mk.injEq] at h1
        obtain ⟨hu, hdb⟩ := h1
        subst hu hdb
        have hfind₂ : (replacedById db (githubLinked v0 g)).users.find?
            (fun v => v.githubID == some g.id) = some (githubLinked v0 g) :=
          find_replaceById_fresh db.users _ _ v0 hall
            (List.mem_of_find?_eq_some hem) rfl (by simp [githubLinked])
        refine ⟨_, _, loginWithGitHub_github_hit _ g _ hfind₂, rfl, ?_, ?_⟩
        · simp [replacedById]
        · simp [replacedById]
  · rw [loginWithGitHub_github_hit db g u0 hfind] at h1
    simp only [Except.ok.injEq, Prod.mk.injEq] at h1
    obtain ⟨hu, hdb⟩ := h1
    subst hu hdb
    have hfind₂ : (replacedById db (avatarRefreshed u0 g)).users.find?
        (fun v => v.githubID == some g.id) = some (avatarRefreshed u0 g) :=
      find_replaceById db.users _ u0 _ hfind rfl
        (by simpa [avatarRefreshed] using List.find?_some hfind)
    refine ⟨_, _, loginWithGitHub_github_hit _ g _ hfind₂, rfl, ?_, ?_⟩
    · simp [replacedById]
    · simp [replacedById]

/-- Witness for C5: a first delegated login against an empty database
creates one user; the instantiated conclusion then holds. -/
theorem reconcile_idempotent_witness :
    ∃ u₂ db₂,
      loginWithGitHub dbRepo
          ⟨[createdUser (Db.mk [] 1) ⟨42, "alice", "", "av"⟩ 1], 2⟩
          ⟨42, "alice", "", "av"⟩
        = .ok (u₂, db₂)
      ∧ u₂.id = (createdUser (Db.mk [] 1) ⟨42, "alice", "", "av"⟩ 1).id
      ∧ db₂.users.length
          = (Db.mk [createdUser (Db.mk [] 1) ⟨42, "alice", "", "av"⟩ 1] 2).users.length
      ∧ (Db.mk [createdUser (Db.mk [] 1) ⟨42, "alice", "", "av"⟩ 1] 2).users.length
          ≤ (Db.mk [] 1).users.length + 1 :=
  reconcile_idempotent (Db.mk [] 1) ⟨42, "alice", "", "av"⟩
    (createdUser (Db.mk [] 1) ⟨42, "alice", "", "av"⟩ 1)
    ⟨[createdUser (Db.mk [] 1) ⟨42, "alice", "", "av"⟩ 1], 2⟩ (loginWithGitHub_create_path (Db.mk [] 1) ⟨42, "alice", "", "av"⟩ (by decide) (Or.inl rfl))

/-- **C2 counterexample.** With a repository whose lookup by
external-provider identifier fails with a transport/storage error (not
not-found), `LoginWithGitHub` does not abort: it proceeds and returns a
newly created user record, contradicting the claim that any
transport/storage error aborts the login without creating or returning
a user. -/
theorem loginWithGitHub_storage_error_counterexample :
    (withGitHubLookup dbRepo
        (fun _ _ => .error (.storage "connection refused"))).findByGitHubID
        (Db.mk [] 1) 42 = .error (.storage "connection refused")
    ∧ loginWithGitHub
        (withGitHubLookup dbRepo (fun _ _ => .error (.storage "connection refused")))
        (Db.mk [] 1) ⟨42, "alice", "alice@x.com", "av"⟩
      = .ok (⟨1, "alice", "alice@x.com", "", some 42, "av", "github"⟩,
             ⟨[⟨1, "alice", "alice@x.com", "", some 42, "av", "github"⟩], 2⟩) :=
  ⟨rfl, rfl⟩

/-- **C2 (amended).** Only `Update` and `Create` errors abort
`LoginWithGitHub` with an error; an error from the lookup by
external-provider identifier — a storage error included — is treated
exactly like not-found (the call behaves identically under either), and
when that lookup and the email step yield no user while `Create` fails,
the call aborts with the creation error. -/
theorem loginWithGitHub_error_discipline {σ : Type} (repo : Repo σ) (st : σ)
    (g : GitHubUser) :
    (∀ msg : String,
      loginWithGitHub (withGitHubLookup repo (fun _ _ => .error (.storage msg))) st g
        = loginWithGitHub (withGitHubLookup repo (fun _ _ => .error .notFound)) st g)
    ∧ (∀ (u : User) (e : RepoError),
        repo.findByGitHubID st g.id = .ok u →
        repo.update st (avatarRefreshed u g) = .error e →
        loginWithGitHub repo st g = .error "更新用户信息失败")
    ∧ ((∀ u : User, repo.findByGitHubID st g.id ≠ .ok u) →
        (g.email = "" ∨ ∀ u : User, repo.findByEmail st g.email ≠ .ok u) →
        (∀ (u : User) (p : User × σ), repo.create st u ≠ .ok p) →
        loginWithGitHub repo st g = .error "创建用户失败") := by
  refine ⟨fun msg => rfl, ?_, ?_⟩
  · intro u e h1 h2
    simp only [avatarRefreshed] at h2
    simp [loginWithGitHub, h1, h2]
  · intro h1 hem hcr
    rcases hgid : repo.findByGitHubID st g.id with e₀ | u
    · simp only [loginWithGitHub, hgid]
      by_cases he : g.email = ""
      · simp only [he, ne_eq, not_true_eq_false, if_false]
        rcases hex : repo.existsByUsername st g.login with e₁ | b <;>
          · simp only [hex]
            split
            · rename_i p heq
              exact absurd heq (hcr _ _)
            · rfl
      · simp only [ne_eq, he, not_false_eq_true, if_true]
        rcases hemail : repo.findByEmail st g.email with e₁ | u
        · simp only [hemail]
          rcases hex : repo.existsByUsername st g.login with e₁ | b <;>
            · simp only [hex]
              split
              · rename_i p heq
                exact absurd heq (hcr _ _)
              · rfl
        · rcases hem with hem | hem
          · exact absurd hem he
          · exact absurd hemail (hem u)
    · exact absurd hgid (h1 u)

/-- Witness for C2 (amended): a repository whose provider lookup
reports a storage fault behaves as on not-found, and one whose `Create`
fails aborts with the creation error. -/
theorem loginWithGitHub_error_discipline_witness :
    (loginWithGitHub
        (withGitHubLookup dbRepo (fun _ _ => .error (.storage "db down")))
        (Db.mk [] 1) ⟨42, "alice", "", "av"⟩
      = loginWithGitHub (withGitHubLookup dbRepo (fun _ _ => .error .notFound))
          (Db.mk [] 1) ⟨42, "alice", "", "av"⟩)
    ∧ loginWithGitHub
        { dbRepo with
            findByGitHubID := fun _ _ => .error .notFound
            create := fun _ _ => .error (.storage "disk full") }
        (Db.mk [] 1) ⟨42, "alice", "", "av"⟩
      = .error "创建用户失败" :=
  ⟨(loginWithGitHub_error_discipline
      (withGitHubLookup dbRepo (fun _ _ => .error .notFound))
      (Db.mk [] 1) ⟨42, "alice", "", "av"⟩).1 "db down",
   (loginWithGitHub_error_discipline
      { dbRepo with
          findByGitHubID := fun _ _ => .error .notFound
          create := fun _ _ => .error (.storage "disk full") }
      (Db.mk [] 1) ⟨42, "alice", "", "av"⟩).2.2
      (fun u h => by exact Except.noConfusion h)
      (Or.inl rfl)
      (fun u p h => by exact Except.noConfusion h)⟩

/-- Witness for C8 at a concrete issuance. -/
theorem jwt_issue_claim_times_witness :
    (generateToken 7 "alice" "k1" 86400 1000).claims.issuedAt = 1000
    ∧ (generateToken 7 "alice" "k1" 86400 1000).claims.notBefore = 1000
    ∧ (generateToken 7 "alice" "k1" 86400 1000).claims.expiresAt = 1000 + 86400
    ∧ ((0 : Int) < 86400 →
        (generateToken 7 "alice" "k1" 86400 1000).claims.issuedAt
          < (generateToken 7 "alice" "k1" 86400 1000).claims.expiresAt) :=
  jwt_issue_claim_times 7 "alice" "k1" 86400 1000

/-- A `Put` immediately followed by a validation of the same session id
with the stored state succeeds. -/
theorem validate_after_put (store : Session.Store) (now : Int)
    (sessionID state ua ip : String) :
    Session.validateOAuth2Session
        (Session.createOAuth2Session store now sessionID state ua ip)
        now sessionID state
      = .ok ⟨state, now, ua, ip⟩ := by
  unfold Session.validateOAuth2Session Session.createOAuth2Session Session.redisSet
    Session.redisGet
  rw [List.find?_cons_of_pos _ (by simp)]
  simp only [if_pos (show now < now + 600 by omega)]
  simp [show ¬ (600 : Int) < now - now by omega]

/-- After the separate `Del`, any later validation of the same session
id reports not-found. -/
theorem validate_after_del (store : Session.Store) (t : Int)
    (sessionID receivedState : String) :
    Session.validateOAuth2Session (Session.deleteOAuth2Session store sessionID)
        t sessionID receivedState
      = .error .notFound := by
  have h : (store.filter (fun e => !(e.1 == Session.sessionKey sessionID))).find?
      (fun e => e.1 == Session.sessionKey sessionID) = none := by
    rw [List.find?_eq_none]
    intro x hx
    simpa using (List.mem_filter.mp hx).2
  simp [Session.validateOAuth2Session, Session.deleteOAuth2Session, Session.redisDel,
    Session.redisGet, h]

/-- A key that was never stored validates as not-found. -/
theorem validate_unseen (store : Session.Store) (now : Int)
    (sessionID receivedState : String)
    (h : Session.sessionKey sessionID ∉ store.map (fun e => e.1)) :
    Session.validateOAuth2Session store now sessionID receivedState
      = .error .notFound := by
  have hf : store.find? (fun e => e.1 == Session.sessionKey sessionID) = none := by
    rw [List.find?_eq_none]
    intro x hx hbe
    exact h (List.mem_map.mpr ⟨x, hx, by simpa using hbe⟩)
  simp [Session.validateOAuth2Session, Session.redisGet, hf]

/-- **C1 (amended).** The handshake-session consumption is sequentially
single-use: validating an unseen session id fails with not-found; after
the (separate) delete, any validation of that id fails with not-found;
and when one callback runs its validate-then-delete pair to completion
before a second callback starts, the first authenticates and the second
is rejected.  (The read and the delete are two separate Redis
operations — a Get inside `ValidateOAuth2Session` and a Del inside
`DeleteOAuth2Session` — not one atomic operation; see the
counterexample.) -/
theorem takeOnce_sequentially_single_use (store : Session.Store) (now t : Int)
    (sessionID receivedState state ua ip : String) :
    (Session.sessionKey sessionID ∉ store.map (fun e => e.1) →
      Session.validateOAuth2Session store now sessionID receivedState
        = .error .notFound)
    ∧ Session.validateOAuth2Session (Session.deleteOAuth2Session store sessionID)
        t sessionID receivedState = .error .notFound
    ∧ (Session.runRace Session.stepConsumer
          ⟨Session.createOAuth2Session store now sessionID state ua ip,
           now, sessionID, state, .ready, .ready⟩
          [true, true, false, false]).a = .finished true
    ∧ (Session.runRace Session.stepConsumer
          ⟨Session.createOAuth2Session store now sessionID state ua ip,
           now, sessionID, state, .ready, .ready⟩
          [true, true, false, false]).b = .finished false := by
  refine ⟨fun h => validate_unseen store now sessionID receivedState h,
          validate_after_del store t sessionID receivedState, ?_, ?_⟩ <;>
    simp [Session.runRace, Session.stepRace, Session.stepConsumer,
      validate_after_put store now sessionID state ua ip, validate_after_del]

/-- Witness for C1 (amended) at a concrete store and handshake. -/
theorem takeOnce_sequentially_single_use_witness :
    Session.validateOAuth2Session [] 0 "sid1" "st1" = .error .notFound
    ∧ Session.validateOAuth2Session (Session.deleteOAuth2Session [] "sid1") 5 "sid1" "st1"
        = .error .notFound
    ∧ (Session.runRace Session.stepConsumer
          ⟨Session.createOAuth2Session [] 0 "sid1" "st1" "ua" "ip",
           0, "sid1", "st1", .ready, .ready⟩
          [true, true, false, false]).a = .finished true
    ∧ (Session.runRace Session.stepConsumer
          ⟨Session.createOAuth2Session [] 0 "sid1" "st1" "ua" "ip",
           0, "sid1", "st1", .ready, .ready⟩
          [true, true, false, false]).b = .finished false :=
  have h := takeOnce_sequentially_single_use [] 0 5 "sid1" "st1" "st1" "ua" "ip"
  ⟨h.1 (by simp), h.2.1, h.2.2.1, h.2.2.2⟩

/-- **C1 counterexample.** The claimed atomicity fails: consumption is a
separate Get (`ValidateOAuth2Session`, which leaves the store
unchanged) followed by a separate Del (`DeleteOAuth2Session`), so under
the interleaving Get-A, Get-B, Del-A, Del-B both callback deliveries
for the same handshake validate successfully; under the spec's atomic
take-once discipline the same schedule authenticates exactly one of
them. -/
theorem takeOnce_not_atomic_counterexample :
    (Session.runRace Session.stepConsumer
        ⟨Session.createOAuth2Session [] 0 "sid1" "st1" "ua" "ip",
         0, "sid1", "st1", .ready, .ready⟩
        [true, false, true, false]).a = .finished true
    ∧ (Session.runRace Session.stepConsumer
        ⟨Session.createOAuth2Session [] 0 "sid1" "st1" "ua" "ip",
         0, "sid1", "st1", .ready, .ready⟩
        [true, false, true, false]).b = .finished true
    ∧ (Session.runRace Session.stepConsumerAtomic
        ⟨Session.createOAuth2Session [] 0 "sid1" "st1" "ua" "ip",
         0, "sid1", "st1", .ready, .ready⟩
        [true, false, true, false]).a = .finished true
    ∧ (Session.runRace Session.stepConsumerAtomic
        ⟨Session.createOAuth2Session [] 0 "sid1" "st1" "ua" "ip",
         0, "sid1", "st1", .ready, .ready⟩
        [true, false, true, false]).b = .finished false := by
  refine ⟨?_, ?_, ?_, ?_⟩ <;> decide

/-- **C7.** Anti-enumeration at the local login boundary: a request
naming a username that does not exist and a request naming an existing
username with a wrong password receive the identical failure response —
the same 401 status and the same generic message. -/
theorem login_anti_enumeration
    (dm : Bcrypt.Hashed → String → Bool) (db : Db) (secret : String) (now : Int)
    (req₁ req₂ : LoginRequest) (u : User)
    (hb₁ : bindLoginRequest req₁ = true) (hb₂ : bindLoginRequest req₂ = true)
    (h₁ : db.users.find? (fun v => v.username == req₁.username) = none)
    (h₂ : db.users.find? (fun v => v.username == req₂.username) = some u)
    (hpw : Bcrypt.checkPassword dm u.password req₂.password = false) :
    login dm db secret now req₁ = login dm db secret now req₂
    ∧ login dm db secret now req₁ = ⟨401, .errMsg "用户名或密码错误"⟩ := by
  have hne₁ : req₁.username ≠ "" := by
    intro h
    rw [bindLoginRequest, h] at hb₁
    simp at hb₁
  have hne₂ : req₂.username ≠ "" := by
    intro h
    rw [bindLoginRequest, h] at hb₂
    simp at hb₂
  have e₁ : login dm db secret now req₁ = ⟨401, .errMsg "用户名或密码错误"⟩ := by
    simp [login, hb₁, getByUsername, hne₁, dbFindByUsername, h₁]
  have e₂ : login dm db secret now req₂ = ⟨401, .errMsg "用户名或密码错误"⟩ := by
    simp [login, hb₂, getByUsername, hne₂, dbFindByUsername, h₂, hpw]
  exact ⟨e₁.trans e₂.symm, e₁⟩

/-- Witness for C7: "charlie" is not registered, "bobby" is but the
password is wrong; the two responses coincide. -/
theorem login_anti_enumeration_witness :
    login (fun _ _ => false)
        (Db.mk [⟨1, "bobby", "b@x.com", "storedhash", none, "", "local"⟩] 2)
        "k1" 0 ⟨"charlie", "password1"⟩
      = login (fun _ _ => false)
          (Db.mk [⟨1, "bobby", "b@x.com", "storedhash", none, "", "local"⟩] 2)
          "k1" 0 ⟨"bobby", "password1"⟩
    ∧ login (fun _ _ => false)
        (Db.mk [⟨1, "bobby", "b@x.com", "storedhash", none, "", "local"⟩] 2)
        "k1" 0 ⟨"charlie", "password1"⟩
      = ⟨401, .errMsg "用户名或密码错误"⟩ :=
  login_anti_enumeration (fun _ _ => false)
    (Db.mk [⟨1, "bobby", "b@x.com", "storedhash", none, "", "local"⟩] 2)
    "k1" 0 ⟨"charlie", "password1"⟩ ⟨"bobby", "password1"⟩
    ⟨1, "bobby", "b@x.com", "storedhash", none, "", "local"⟩
    (by decide) (by decide) (by decide) (by decide) (by decide)

/-- **C10.** A failed handshake-session deletion after a successful
state validation is only logged: the callback's response is identical
to the one with a successful deletion, the authorization-code exchange
is still performed, and when exchange and reconciliation succeed the
callback still issues a token and redirects to the success page. -/
theorem callback_delete_failure_only_logged (env : CallbackEnv)
    (req : CallbackRequest) (msg : String) :
    (gitHubCallback { env with delOutcome := .error msg } req).1
      = (gitHubCallback { env with delOutcome := .ok () } req).1
    ∧ (∀ sessionID info,
        req.cookieSessionID = some sessionID →
        req.code ≠ "" →
        Session.validateOAuth2Session env.store env.now sessionID req.state
          = .ok info →
        CallbackEvent.exchangeCalled
            ∈ (gitHubCallback { env with delOutcome := .error msg } req).2
        ∧ (∀ gu u st₂,
            env.exchangeResult = .ok gu →
            loginWithGitHub dbRepo env.db gu = .ok (u, st₂) →
            (gitHubCallback { env with delOutcome := .error msg } req).1
              = .successRedirect
                  (generateToken u.id u.username env.jwtSecret 86400 env.now)
                  u.id u.username u.authType
            ∧ CallbackEvent.tokenIssued
                ∈ (gitHubCallback { env with delOutcome := .error msg } req).2)) := by
  constructor
  · rcases hcook : req.cookieSessionID with _ | sid
    · simp [gitHubCallback, hcook]
    · by_cases hcode : req.code = ""
      · simp [gitHubCallback, hcook, hcode]
      · rcases hv : Session.validateOAuth2Session env.store env.now sid req.state
          with e | info
        · simp [gitHubCallback, hcook, hcode, hv]
        · rcases hex : env.exchangeResult with e | gu
          · simp [gitHubCallback, hcook, hcode, hv, hex]
          · rcases hlog : loginWithGitHub dbRepo env.db gu with e | p
            · simp [gitHubCallback, hcook, hcode, hv, hex, hlog]
            · simp [gitHubCallback, hcook, hcode, hv, hex, hlog]
  · intro sid info hcook hcode hv
    constructor
    · rcases hex : env.exchangeResult with e | gu
      · simp [gitHubCallback, hcook, hcode, hv, hex]
      · rcases hlog : loginWithGitHub dbRepo env.db gu with e | p
        · simp [gitHubCallback, hcook, hcode, hv, hex, hlog]
        · simp [gitHubCallback, hcook, hcode, hv, hex, hlog]
    · intro gu u st₂ hex hlog
      constructor
      · simp [gitHubCallback, hcook, hcode, hv, hex, hlog]
      · simp [gitHubCallback, hcook, hcode, hv, hex, hlog]

/-- Witness for C10 at a concrete callback whose validation, exchange
and reconciliation all succeed while the Redis Del fails. -/
theorem callback_delete_failure_only_logged_witness :
    (gitHubCallback
        { CallbackEnv.mk (Session.createOAuth2Session [] 0 "sid1" "st1" "ua" "ip") 0
            (.ok ()) (.ok ⟨42, "alice", "", "av"⟩) (Db.mk [] 1) "k1" with
          delOutcome := .error "redis down" }
        ⟨some "sid1", "code1", "st1"⟩).1
      = (gitHubCallback
          { CallbackEnv.mk (Session.createOAuth2Session [] 0 "sid1" "st1" "ua" "ip") 0
              (.ok ()) (.ok ⟨42, "alice", "", "av"⟩) (Db.mk [] 1) "k1" with
            delOutcome := .ok () }
          ⟨some "sid1", "code1", "st1"⟩).1
    ∧ CallbackEvent.exchangeCalled
        ∈ (gitHubCallback
            { CallbackEnv.mk (Session.createOAuth2Session [] 0 "sid1" "st1" "ua" "ip") 0
                (.ok ()) (.ok ⟨42, "alice", "", "av"⟩) (Db.mk [] 1) "k1" with
              delOutcome := .error "redis down" }
            ⟨some "sid1", "code1", "st1"⟩).2
    ∧ CallbackEvent.tokenIssued
        ∈ (gitHubCallback
            { CallbackEnv.mk (Session.createOAuth2Session [] 0 "sid1" "st1" "ua" "ip") 0
                (.ok ()) (.ok ⟨42, "alice", "", "av"⟩) (Db.mk [] 1) "k1" with
              delOutcome := .error "redis down" }
            ⟨some "sid1", "code1", "st1"⟩).2 :=
  have h := callback_delete_failure_only_logged
    (CallbackEnv.mk (Session.createOAuth2Session [] 0 "sid1" "st1" "ua" "ip") 0
      (.ok ()) (.ok ⟨42, "alice", "", "av"⟩) (Db.mk [] 1) "k1")
    ⟨some "sid1", "code1", "st1"⟩ "redis down"
  have h₂ := h.2 "sid1" ⟨"st1", 0, "ua", "ip"⟩ rfl (by decide)
    (validate_after_put [] 0 "sid1" "st1" "ua" "ip")
  ⟨h.1, h₂.1,
   (h₂.2 ⟨42, "alice", "", "av"⟩
      (createdUser (Db.mk [] 1) ⟨42, "alice", "", "av"⟩ 1)
      ⟨[createdUser (Db.mk [] 1) ⟨42, "alice", "", "av"⟩ 1], 2⟩
      rfl
      (loginWithGitHub_create_path (Db.mk [] 1) ⟨42, "alice", "", "av"⟩
        (by decide) (Or.inl rfl))).2⟩

end AuthService
